import Mathlib

/-!
Verification development for the phospho client library core:
the input/output normalizer (`phospho/extractor.py`) and the
job/workload runner (`phospho/lab/lab.py`).

Python's dynamically typed values are embedded as the inductive type
`PyVal`; Python exceptions are embedded as the `PyErr` kind (exception
message payloads are elided, only the exception class is tracked).
Functions that can raise return `Except PyErr _`.
-/

namespace Phospho

/-- The embedding of the Python values that flow through the extractor:
`None`, booleans, integers, strings, byte blobs (carried as their decoded
text), lists, `dict`s with string keys, pydantic `BaseModel` instances
(runtime class name plus field map), and other objects.  An "other"
object carries the outcome that `dict(x)` would have on it. -/
inductive PyVal where
  | vNone : PyVal
  | vBool : Bool → PyVal
  | vInt : Int → PyVal
  | vStr : String → PyVal
  | vBytes : String → PyVal
  | vList : List PyVal → PyVal
  | vDict : List (String × PyVal) → PyVal
  | vModel : String → List (String × PyVal) → PyVal
  | vObj : String → PyVal
  | vObjPairs : String → List (String × PyVal) → PyVal

/-- The exception classes raised by the extractor and the lab runner.
`parseError` is `json.JSONDecodeError`; the others are the builtin
Python exception classes.  Message payloads are elided. -/
inductive PyErr where
  | parseError : PyErr
  | valueError : PyErr
  | notImplementedError : PyErr
  | attributeError : PyErr
  | typeError : PyErr
  | keyError : PyErr
  deriving Repr, DecidableEq

/-- First-match association-list lookup: the embedding of `d.get(k)` /
`d[k]` key lookup on a Python dict (keys are unique in a real dict, so
first-match is exact). -/
def dlookup {α : Type} : List (String × α) → String → Option α
  | [], _ => none
  | (k, v) :: kvs, key => if k = key then some v else dlookup kvs key

/-- The embedding of `d[k] = v` on a Python dict: overwrite the existing
binding if the key is present, otherwise append the new binding (Python
dicts preserve insertion order). -/
def dictInsert {α : Type} : List (String × α) → String → α → List (String × α)
  | [], k, v => [(k, v)]
  | (k', v') :: kvs, k, v =>
      if k' = k then (k, v) :: kvs else (k', v') :: dictInsert kvs k v

/-- The embedding of `k in d.keys()` on a Python dict. -/
def dMember {α : Type} (kvs : List (String × α)) (key : String) : Bool :=
  (dlookup kvs key).isSome

theorem dlookup_dictInsert {α : Type} (kvs : List (String × α)) (k k' : String) (v : α) :
    dlookup (dictInsert kvs k v) k' = if k' = k then some v else dlookup kvs k' := by
  induction kvs with
  | nil =>
      rcases eq_or_ne k k' with h | h
      · subst h; simp [dictInsert, dlookup]
      · simp [dictInsert, dlookup, h, Ne.symm h]
  | cons kv rest ih =>
      obtain ⟨k0, v0⟩ := kv
      by_cases h0 : k0 = k
      · subst h0
        rcases eq_or_ne k0 k' with h | h
        · subst h; simp [dictInsert, dlookup]
        · simp [dictInsert, dlookup, h, Ne.symm h]
      · rcases eq_or_ne k0 k' with h | h
        · subst h
          simp [dictInsert, dlookup, h0, Ne.symm h0]
        · simp [dictInsert, dlookup, h0, h, ih]

/-- The embedding of Python's `x is None` test. -/
def PyVal.isNone : PyVal → Bool
  | .vNone => true
  | _ => false

/-- The embedding of Python's `isinstance(x, str)` test, together with
the string payload when it holds. -/
def PyVal.asStr : PyVal → Option String
  | .vStr s => some s
  | _ => none

theorem PyVal.isNone_iff (v : PyVal) : v.isNone = true ↔ v = .vNone := by
  cases v <;> simp [PyVal.isNone]

theorem PyVal.asStr_eq_some_iff (v : PyVal) (s : String) :
    v.asStr = some s ↔ v = .vStr s := by
  cases v <;> simp [PyVal.asStr]

mutual

/-- The embedding of Python's `repr(x)` for the embedded values.  Exact
quoting/escaping of nested strings is approximated (a plain quote is
always used); no claim depends on the precise repr text. -/
def pyRepr : PyVal → String
  | .vNone => "None"
  | .vBool b => if b then "True" else "False"
  | .vInt n => toString n
  | .vStr s => "\x27" ++ s ++ "\x27"
  | .vBytes b => "b\x27" ++ b ++ "\x27"
  | .vList xs => "[" ++ String.intercalate ", " (pyReprList xs) ++ "]"
  | .vDict kvs => "\x7b" ++ String.intercalate ", " (pyReprKvs kvs) ++ "\x7d"
  | .vModel cls fields =>
      cls ++ "(" ++ String.intercalate ", " (pyReprKvs fields) ++ ")"
  | .vObj cls => "<" ++ cls ++ " object>"
  | .vObjPairs cls _ => "<" ++ cls ++ " object>"

def pyReprList : List PyVal → List String
  | [] => []
  | x :: xs => pyRepr x :: pyReprList xs

def pyReprKvs : List (String × PyVal) → List String
  | [] => []
  | (k, v) :: kvs => ("\x27" ++ k ++ "\x27: " ++ pyRepr v) :: pyReprKvs kvs

end

/-- The embedding of Python's `str(x)`: identity on strings, `repr`
otherwise (for the value shapes that occur here). -/
def pyStr : PyVal → String
  | .vStr s => s
  | v => pyRepr v

mutual

/-- Modelled from the spec: `is_jsonable` from `phospho.utils` (not under
`src/`), the "serializable" test.  A value is JSON-serializable iff it is
`None`, a bool, an int, a string, a list of serializable values, or a
string-keyed dict of serializable values; bytes, pydantic models and
other objects are not (`json.dumps` raises a `TypeError` on them). -/
def is_jsonable : PyVal → Bool
  | .vNone => true
  | .vBool _ => true
  | .vInt _ => true
  | .vStr _ => true
  | .vList xs => isJsonableList xs
  | .vDict kvs => isJsonableKvs kvs
  | _ => false

def isJsonableList : List PyVal → Bool
  | [] => true
  | x :: xs => is_jsonable x && isJsonableList xs

def isJsonableKvs : List (String × PyVal) → Bool
  | [] => true
  | (_, v) :: kvs => is_jsonable v && isJsonableKvs kvs

end

mutual

/-- The embedding of pydantic's `BaseModel.model_dump()`: recursively
turn models into plain field dicts, descending through lists and dicts. -/
def model_dump : PyVal → PyVal
  | .vModel _ fields => .vDict (modelDumpKvs fields)
  | .vList xs => .vList (modelDumpList xs)
  | .vDict kvs => .vDict (modelDumpKvs kvs)
  | x => x

def modelDumpList : List PyVal → List PyVal
  | [] => []
  | x :: xs => model_dump x :: modelDumpList xs

def modelDumpKvs : List (String × PyVal) → List (String × PyVal)
  | [] => []
  | (k, v) :: kvs => (k, model_dump v) :: modelDumpKvs kvs

end

/-! ### A model of `json.loads`

`convert_to_dict` delegates string and byte inputs to Python's standard
`json.loads`.  That library is external to the repository, so it is
modelled here by a small recursive-descent JSON reader over the embedded
values.  Model restrictions (such inputs count as malformed): number
literals are integers only, and `\uXXXX` string escapes are not read. -/

def openBrace : Char := Char.ofNat 123

def closeBrace : Char := Char.ofNat 125

def skipWs : List Char → List Char
  | [] => []
  | c :: cs =>
      if c = ' ' ∨ c = '\t' ∨ c = '\n' ∨ c = '\r' then skipWs cs else c :: cs

/-- Strip a literal keyword (`null`, `true`, `false`) from the front of
the input. -/
def matchLit : List Char → List Char → Option (List Char)
  | [], rest => some rest
  | _ :: _, [] => none
  | k :: ks, c :: rest => if c = k then matchLit ks rest else none

/-- JSON string escapes (the `\uXXXX` form is outside the model). -/
def jsonEsc (c : Char) : Option Char :=
  if c = '"' ∨ c = '\\' ∨ c = '/' then some c
  else if c = 'n' then some '\n'
  else if c = 't' then some '\t'
  else if c = 'r' then some '\r'
  else if c = 'b' then some (Char.ofNat 8)
  else if c = 'f' then some (Char.ofNat 12)
  else none

/-- Read the body of a JSON string literal, after the opening quote. -/
def readStrBody : List Char → Option (String × List Char)
  | [] => none
  | c :: rest =>
      if c = '"' then some ("", rest)
      else if c = '\\' then
        match rest with
        | [] => none
        | e :: rest2 =>
            match jsonEsc e with
            | none => none
            | some ec =>
                match readStrBody rest2 with
                | none => none
                | some (tail, rem) => some (String.singleton ec ++ tail, rem)
      else
        match readStrBody rest with
        | none => none
        | some (tail, rem) => some (String.singleton c ++ tail, rem)

def digitsVal : List Char → Nat → Nat
  | [], acc => acc
  | d :: ds, acc => digitsVal ds (10 * acc + (d.toNat - 48))

/-- Read a JSON integer literal.  A fractional part or an exponent makes
the input malformed in this model. -/
def readNumber (cs : List Char) : Option (PyVal × List Char) :=
  let core : Bool → List Char → Option (PyVal × List Char) := fun neg body =>
    let ds := body.takeWhile Char.isDigit
    let rest := body.drop ds.length
    match ds with
    | [] => none
    | _ :: _ =>
        match rest.head? with
        | some nxt =>
            if nxt = '.' ∨ nxt = 'e' ∨ nxt = 'E' then none
            else
              let n : Int := Int.ofNat (digitsVal ds 0)
              some (.vInt (if neg then -n else n), rest)
        | none => some (.vInt (if neg then -(Int.ofNat (digitsVal ds 0))
                               else Int.ofNat (digitsVal ds 0)), [])
  match cs with
  | c :: body => if c = '-' then core true body else core false cs
  | [] => none

mutual

def readJsonValue : Nat → List Char → Option (PyVal × List Char)
  | 0, _ => none
  | Nat.succ fuel, input =>
      let cs := skipWs input
      match matchLit "null".data cs with
      | some r => some (.vNone, r)
      | none =>
      match matchLit "true".data cs with
      | some r => some (.vBool true, r)
      | none =>
      match matchLit "false".data cs with
      | some r => some (.vBool false, r)
      | none =>
      match cs with
      | [] => none
      | c :: r =>
          if c = '"' then
            match readStrBody r with
            | some (s, rem) => some (.vStr s, rem)
            | none => none
          else if c = '[' then
            match skipWs r with
            | ']' :: rem => some (.vList [], rem)
            | _ =>
                match readArrayTail fuel r with
                | some (xs, rem) => some (.vList xs, rem)
                | none => none
          else if c = openBrace then
            match skipWs r with
            | d :: rem =>
                if d = closeBrace then some (.vDict [], rem)
                else
                  match readObjectTail fuel r with
                  | some (ms, rem2) => some (.vDict ms, rem2)
                  | none => none
            | [] => none
          else if c = '-' ∨ c.isDigit then readNumber cs
          else none

def readArrayTail : Nat → List Char → Option (List PyVal × List Char)
  | 0, _ => none
  | Nat.succ fuel, cs =>
      match readJsonValue fuel cs with
      | none => none
      | some (v, rest) =>
          match skipWs rest with
          | ',' :: more =>
              match readArrayTail fuel more with
              | some (vs, rem) => some (v :: vs, rem)
              | none => none
          | ']' :: rem => some ([v], rem)
          | _ => none

def readObjectTail : Nat → List Char → Option (List (String × PyVal) × List Char)
  | 0, _ => none
  | Nat.succ fuel, cs =>
      match skipWs cs with
      | [] => none
      | q :: r =>
          if q = '"' then
            match readStrBody r with
            | none => none
            | some (k, r1) =>
                match skipWs r1 with
                | ':' :: r2 =>
                    (match readJsonValue fuel r2 with
                     | none => none
                     | some (v, r3) =>
                        match skipWs r3 with
                        | ',' :: r4 =>
                            (match readObjectTail fuel r4 with
                             | some (ms, rem) => some ((k, v) :: ms, rem)
                             | none => none)
                        | d :: rem =>
                            if d = closeBrace then some ([(k, v)], rem)
                            else none
                        | [] => none)
                | _ => none
          else none

end

/-- Modelled from the spec: Python's standard-library `json.loads`
(external to this repository), which backs the string and byte branches
of `convert_to_dict`.  `none` plays the role of `json.JSONDecodeError`
on malformed text. -/
def json_loads (s : String) : Option PyVal :=
  match readJsonValue (s.length + 1) s.data with
  | some (v, rest) => if skipWs rest = [] then some v else none
  | none => none


/-- Attempted key-value extraction behind Python's `dict(x)` fallback
coercion on a list: it succeeds when every element is a two-element
sequence whose first component is a string key. -/
def listToPairs : List PyVal → Option (List (String × PyVal))
  | [] => some []
  | .vList [.vStr k, v] :: rest =>
      match listToPairs rest with
      | some kvs => some ((k, v) :: kvs)
      | none => none
  | _ :: _ => none

/-- The embedding of `convert_to_dict` (extractor.py, lines 14-34):
dicts pass through unchanged, pydantic models are `model_dump`ed,
strings and bytes go through `json.loads` (bytes after UTF-8 decoding,
which the byte model carries pre-decoded), and any other value is given
to `dict(x)` — a `ValueError` there is re-raised as a `ValueError` and a
`TypeError` becomes a `NotImplementedError`. -/
def convert_to_dict (x : PyVal) : Except PyErr PyVal :=
  match x with
  | .vDict kvs => .ok (.vDict kvs)
  | .vModel cls fields => .ok (model_dump (.vModel cls fields))
  | .vStr s =>
      match json_loads s with
      | some v => .ok v
      | none => .error .parseError
  | .vBytes b =>
      match json_loads b with
      | some v => .ok v
      | none => .error .parseError
  | .vList xs =>
      match listToPairs xs with
      | some kvs => .ok (.vDict kvs)
      | none => .error .valueError
  | .vObjPairs _ kvs => .ok (.vDict kvs)
  | _ => .error .notImplementedError

/-- The embedding of `x.get(key, default)`: only dicts have a `.get`
method; on any other value the attribute access raises
`AttributeError`. -/
def pyGet (v : PyVal) (key : String) (default : PyVal) : Except PyErr PyVal :=
  match v with
  | .vDict kvs => .ok ((dlookup kvs key).getD default)
  | _ => .error .attributeError

/-- The embedding of `getattr(x, name, default)` for the field names the
extractor probes (`choices`, `message`, `content`, `delta`): pydantic
models expose their fields as attributes; no other embedded value has
attributes with those names, so the default is returned. -/
def pyGetattrD (v : PyVal) (name : String) (default : PyVal) : PyVal :=
  match v with
  | .vModel _ fields => (dlookup fields name).getD default
  | _ => default

/-- The embedding of `getattr(x, name)` without a default: raises
`AttributeError` when the attribute is missing. -/
def pyGetattrE (v : PyVal) (name : String) : Except PyErr PyVal :=
  match v with
  | .vModel _ fields =>
      match dlookup fields name with
      | some x => .ok x
      | none => .error .attributeError
  | _ => .error .attributeError

/-- The embedding of Python's `key in x` for a string key: key test on
dicts, equality membership on lists, substring test on strings, and a
`TypeError` on non-container values. -/
def pyIn (key : String) (v : PyVal) : Except PyErr Bool :=
  match v with
  | .vDict kvs => .ok (dMember kvs key)
  | .vList xs =>
      .ok (xs.any fun x => match x with | .vStr s => s = key | _ => false)
  | .vStr s => .ok (decide ((s.splitOn key).length > 1) || key = "")
  | _ => .error .typeError

/-- The embedding of `detect_str_from_input` (extractor.py, lines
37-54): when the input is a dict whose `messages` key holds a non-empty
list whose last element contains a non-`None` `content`, return that
content's string form, otherwise fall back to `str(input)`.  The
membership probe `"content" in input["messages"][-1]` and the
`.get` call are evaluated on the raw last element and may raise. -/
def detect_str_from_input (input : PyVal) : Except PyErr String :=
  match input with
  | .vDict kvs =>
      match dlookup kvs "messages" with
      | some (.vList ms) =>
          match ms.getLast? with
          | some lastMsg => do
              let hasContent ← pyIn "content" lastMsg
              if hasContent then do
                let content ← pyGet lastMsg "content" .vNone
                if content.isNone then pure (pyStr input)
                else pure (pyStr content)
              else pure (pyStr input)
          | none => pure (pyStr input)
      | _ => pure (pyStr input)
  | _ => pure (pyStr input)

/-- The `choices` block of `detect_str_from_output`'s dict branch
(extractor.py, lines 135-153).  `some r` is an executed `return r`;
`none` means control fell through past the block. -/
def detectChoicesBlock (kvs : List (String × PyVal)) :
    Except PyErr (Option PyVal) :=
  match dlookup kvs "choices" with
  | some (.vList (c :: _)) => do
      let message ← pyGet c "message" .vNone
      if message.isNone then do
        let choice_delta ← pyGet c "delta" (.vDict [])
        let content ← pyGet choice_delta "content" .vNone
        if content.isNone then pure (some (.vStr ""))
        else pure (some (.vStr (pyStr content)))
      else do
        let content ← pyGet message "content" .vNone
        if content.isNone then pure none
        else pure (some (.vStr (pyStr content)))
  | _ => pure none

/-- The pydantic-model block of `detect_str_from_output` (extractor.py,
lines 113-131), for a model with runtime class name `cls` and the given
fields.  `some r` is an executed `return r`; `none` is fall-through. -/
def detectModelBlock (cls : String) (fields : List (String × PyVal)) :
    Except PyErr (Option PyVal) :=
  if cls = "ChatCompletion" ∨ cls = "ChatCompletionChunk" then
    match dlookup fields "choices" with
    | some (.vList (c :: _)) =>
        if cls = "ChatCompletion" then
          let message := pyGetattrD c "message" .vNone
          let content := pyGetattrD message "content" .vNone
          if content.isNone then pure none
          else pure (some (.vStr (pyStr content)))
        else do
          let choice_delta ← pyGetattrE c "delta"
          let content := pyGetattrD choice_delta "content" .vNone
          if content.isNone then pure (some (.vStr ""))
          else pure (some (.vStr (pyStr content)))
    | _ => pure none
  else pure none

/-- The embedding of `detect_str_from_output` (extractor.py, lines
90-160).  Bytes are first best-effort converted to a dict (conversion
failures are caught and logged); then the pydantic block, the dict
`choices` block, the Ollama `response` key (returned as-is, not
stringified), and finally the `str(output)` fallback. -/
def detect_str_from_output (output : PyVal) : Except PyErr PyVal := do
  let output :=
    match output with
    | .vBytes b =>
        match convert_to_dict (.vBytes b) with
        | .ok d => d
        | .error _ => .vBytes b
    | _ => output
  let fromModel ←
    match output with
    | .vModel cls fields => detectModelBlock cls fields
    | _ => pure (none : Option PyVal)
  match fromModel with
  | some r => pure r
  | none => do
      let fromDict ←
        match output with
        | .vDict kvs => do
            let fromChoices ← detectChoicesBlock kvs
            match fromChoices with
            | some r => pure (some r)
            | none => pure (dlookup kvs "response")
        | _ => pure (none : Option PyVal)
      match fromDict with
      | some r => pure r
      | none => pure (.vStr (pyStr output))

/-- The output coercion at the head of `detect_usage_from_input_output`
(extractor.py, lines 170-171): a pydantic output is `model_dump`ed,
everything else passes through. -/
def usageCoerce (output : PyVal) : PyVal :=
  match output with
  | .vModel cls fields => model_dump (.vModel cls fields)
  | _ => output

/-- The embedding of `detect_usage_from_input_output` (extractor.py,
lines 163-178): after `model_dump`ing a pydantic output, return the
output dict's `usage` value if the key is present; else
`{"completion_tokens": 1}` when its `object` key equals
`"chat.completion.chunk"`; else `None`.  The input is unused. -/
def detect_usage_from_input_output (_input output : PyVal) : Option PyVal :=
  match usageCoerce output with
  | .vDict kvs =>
      match dlookup kvs "usage" with
      | some u => some u
      | none =>
          match dlookup kvs "object" with
          | some (.vStr s) =>
              if s = "chat.completion.chunk" then
                some (.vDict [("completion_tokens", .vInt 1)])
              else none
          | _ => none
  | _ => none

/-- Modelled from the spec: `filter_nonjsonable_keys` from
`phospho.utils` (not under `src/`) — produce a mapping with the
non-serializable fields removed.  It operates on mappings; handing it a
non-mapping (possible, since `convert_to_dict` of a byte payload returns
whatever the JSON text held) fails with an `AttributeError`. -/
def filter_nonjsonable_keys (d : PyVal) : Except PyErr PyVal :=
  match d with
  | .vDict kvs => .ok (.vDict (kvs.filter fun kv => is_jsonable kv.2))
  | _ => .error .attributeError

/-- The "if raw output/input is specified, override" tail shared by both
extract functions (extractor.py, lines 244-249 and 304-309): keep the
current raw log when no raw value is given; otherwise take the raw value
as-is when serializable, else convert it to a dict and drop its
non-serializable fields. -/
def rawOverride (raw current : PyVal) : Except PyErr PyVal :=
  if raw.isNone then .ok current
  else if is_jsonable raw then .ok raw
  else do
    let d ← convert_to_dict raw
    filter_nonjsonable_keys d

/-- The embedding of `extract_data_from_output` (extractor.py, lines
195-254) with the default `output_to_str_function`.  The optional
`output` and `raw_output` arguments are `PyVal.vNone` when omitted.
Returns the pair `(output_to_log, raw_output_to_log)`. -/
def extract_data_from_output (output raw_output : PyVal) :
    Except PyErr (PyVal × PyVal) := do
  let (output_to_log, raw_output_to_log) ←
    if output.isNone then
      pure ((PyVal.vNone, PyVal.vNone) : PyVal × PyVal)
    else
      match output.asStr with
      | some s => pure ((.vStr s, .vStr s) : PyVal × PyVal)
      | none => do
          let output_to_log ← detect_str_from_output output
          if is_jsonable output then
            pure (output_to_log, output)
          else do
            let d ← convert_to_dict output
            let filtered ← filter_nonjsonable_keys d
            pure (output_to_log, filtered)
  let final_raw ← rawOverride raw_output raw_output_to_log
  pure (output_to_log, final_raw)

/-- The embedding of `extract_data_from_input` (extractor.py, lines
257-314) with the default `input_to_str_function`.  The optional
`raw_input` argument is `PyVal.vNone` when omitted.  Returns the pair
`(input_to_log, raw_input_to_log)`; the source annotates
`input_to_log: str`, and indeed every path assigns it a string. -/
def extract_data_from_input (input raw_input : PyVal) :
    Except PyErr (String × PyVal) := do
  let (input_to_log, raw_input_to_log) ←
    match input.asStr with
    | some s => pure ((s, PyVal.vStr s) : String × PyVal)
    | none => do
        let input_to_log ← detect_str_from_input input
        if is_jsonable input then
          pure (input_to_log, input)
        else do
          let d ← convert_to_dict input
          let filtered ← filter_nonjsonable_keys d
          pure (input_to_log, filtered)
  let final_raw ← rawOverride raw_input raw_input_to_log
  pure (input_to_log, final_raw)

/-! ### The lab job/workload runner (`phospho/lab/lab.py`) -/

/-- Modelled from the spec: the `Message` record from
`phospho.lab.models` (not under `src/`): identity `id` (unique within a
run), a role, and a text content. -/
structure Message where
  id : String
  role : String
  content : String

/-- The `JobResult` type: an opaque structured value returned by a job
function; it is embedded as an arbitrary Python value. -/
abbrev JobResult := PyVal

/-- A Python job function together with its `__name__`.  The `params`
mapping that `Job.run` splats into the call (`**self.params`) is bound
into `run` here; the function may raise. -/
structure JobFn where
  fname : String
  run : Message → Except PyErr JobResult

/-- The embedding of the `Job` class state: its identifier, its bound
function, and the accumulated `job_results` mapping
(`message.id -> job_result`). -/
structure Job where
  job_id : String
  job_function : JobFn
  job_results : List (String × JobResult)

/-- The registry of named job functions that `Job.__init__` resolves a
`job_name` against — the embedding of `getattr(job_library, job_name)`,
where the `job_library` module is not under `src/`, so the registry's
contents stay abstract. -/
abbrev JobRegistry := String → Option JobFn

/-- The embedding of `Job.__init__` (lab.py, lines 16-51): requires a
function or a name (`ValueError` otherwise); a name is resolved in the
registry (`getattr` raises `AttributeError` — the spec's
`UnknownJobError` — when absent); `job_id` defaults to the name, or to
the function's `__name__`; `job_results` starts empty. -/
def Job.init (registry : JobRegistry) (job_function : Option JobFn)
    (job_name : Option String) (job_id : Option String) :
    Except PyErr Job :=
  if job_function.isNone ∧ job_name.isNone then .error .valueError
  else do
    let f ←
      match job_name with
      | some n =>
          (match registry n with
           | some f => Except.ok f
           | none => Except.error PyErr.attributeError)
      | none =>
          (match job_function with
           | some f => Except.ok f
           | none => Except.error PyErr.valueError)
    let jid :=
      match job_id with
      | some i => i
      | none =>
          match job_name with
          | some n => n
          | none => f.fname
    .ok { job_id := jid, job_function := f, job_results := [] }

/-- The embedding of `Job.run` (lab.py, lines 53-62): call the bound
function on the message; on success store the result under
`message.id` and return it; an exception from the function propagates
before the store happens.  The pair is (returned value, post-state). -/
def Job.run (j : Job) (message : Message) :
    Except PyErr JobResult × Job :=
  match j.job_function.run message with
  | .error e => (.error e, j)
  | .ok result =>
      (.ok result,
       { j with job_results := dictInsert j.job_results message.id result })

/-- The embedding of the `Workload` class state: the registered jobs in
order, and the last built result table
(`message.id -> job_id -> job_result`). -/
structure Workload where
  jobs : List Job
  results : List (String × List (String × JobResult))

/-- The embedding of `Workload.__init__` (lab.py, lines 76-81). -/
def Workload.init : Workload := { jobs := [], results := [] }

/-- The embedding of `Workload.add_job` (lab.py, lines 83-87). -/
def Workload.add_job (w : Workload) (job : Job) : Workload :=
  { w with jobs := w.jobs ++ [job] }

/-- A config entry for one job: `{name: ..., params?: ...}` (the
`params` mapping is bound into the registry's functions in this
embedding). -/
structure JobCfg where
  name : String

/-- The embedding of `Workload.from_config` (lab.py, lines 89-105): for
each `job_id -> job_config` entry of `config["jobs"]`, in order,
construct `Job(job_id=job_id, job_name=job_config["name"], ...)` and add
it; the first unregistered name raises out of `Job.__init__`. -/
def fromConfigLoop (registry : JobRegistry) (w : Workload) :
    List (String × JobCfg) → Except PyErr Workload
  | [] => .ok w
  | entry :: rest => do
      let job ← Job.init registry none (some entry.2.name) (some entry.1)
      fromConfigLoop registry (w.add_job job) rest

/-- See `fromConfigLoop` for the per-entry loop body. -/
def Workload.from_config (registry : JobRegistry)
    (jobs_config : List (String × JobCfg)) : Except PyErr Workload :=
  fromConfigLoop registry Workload.init jobs_config

/-- The `"parallel"` dispatch of one job inside `Workload.run`:
`executor.map(job.run, messages)` submits every message to a thread
pool and never iterates the result iterator, so a raising job function
is silently swallowed and only the non-raising messages land in
`job_results`; the pool's interleaving is not modelled beyond that. -/
def runParallel (j : Job) : List Message → Job
  | [] => j
  | m :: rest => runParallel (j.run m).2 rest

/-- The `"sequential"` dispatch of one job (lab.py, lines 135-137): run
the messages in order; the first exception propagates. -/
def runSequential (j : Job) : List Message → Except PyErr Job
  | [] => .ok j
  | m :: rest =>
      match j.run m with
      | (.error e, _) => .error e
      | (.ok _, j') => runSequential j' rest

/-- One job's dispatch inside `Workload.run` (lab.py, lines 129-141):
parallel or sequential per `executor_type`; any other executor type
raises `NotImplementedError` (the spec's `UnsupportedModeError`). -/
def runOneJob (job : Job) (messages : List Message)
    (executor_type : String) : Except PyErr Job :=
  if executor_type = "parallel" then
    .ok (runParallel job messages)
  else if executor_type = "sequential" then
    runSequential job messages
  else .error .notImplementedError

/-- The inner loop of the result-table collection (lab.py, line 148-149):
for each job, read `job.job_results[message.id]` (a missing entry raises
`KeyError`) and store it under the job's id. -/
def collectInnerLoop (mid : String) (inner : List (String × JobResult)) :
    List Job → Except PyErr (List (String × JobResult))
  | [] => .ok inner
  | job :: rest =>
      match dlookup job.job_results mid with
      | some r => collectInnerLoop mid (dictInsert inner job.job_id r) rest
      | none => .error .keyError

/-- The outer loop of the result-table collection (lab.py, lines
145-149). -/
def collectLoop (jobs : List Job)
    (results : List (String × List (String × JobResult))) :
    List Message →
    Except PyErr (List (String × List (String × JobResult)))
  | [] => .ok results
  | m :: rest => do
      let inner ← collectInnerLoop m.id [] jobs
      collectLoop jobs (dictInsert results m.id inner) rest

/-- The result-table collection of `Workload.run` (lab.py, lines
143-149): for every message, for every job, read
`job.job_results[message.id]`. -/
def collectResults (messages : List Message) (jobs : List Job) :
    Except PyErr (List (String × List (String × JobResult))) :=
  collectLoop jobs [] messages

/-- The embedding of `Workload.run` (lab.py, lines 116-152): dispatch
every job over all messages in the requested mode, then build and store
the result table.  Returns the table and the post-state workload. -/
def Workload.run (w : Workload) (messages : List Message)
    (executor_type : String) :
    Except PyErr
      (List (String × List (String × JobResult)) × Workload) := do
  let jobs ← w.jobs.mapM (fun job => runOneJob job messages executor_type)
  let results ← collectResults messages jobs
  pure (results, { jobs := jobs, results := results })

/-! ### Claims -/

/-- C2: `convert_to_dict` (the spec's `toMapping`) is the identity on
every mapping `m`, and on a string input it parses the string as JSON
text (modelled by `json_loads`), failing with `ParseError` exactly when
the text is malformed JSON. -/
theorem convert_to_dict_mapping_id_string_parse :
    (∀ kvs : List (String × PyVal),
        convert_to_dict (.vDict kvs) = .ok (.vDict kvs)) ∧
    (∀ s : String,
        (∀ v, json_loads s = some v → convert_to_dict (.vStr s) = .ok v) ∧
        (convert_to_dict (.vStr s) = .error .parseError ↔
          json_loads s = none)) := by
  refine ⟨fun kvs => rfl, fun s => ⟨fun v hv => by simp [convert_to_dict, hv], ?_, ?_⟩⟩
  · intro h
    cases hj : json_loads s with
    | none => rfl
    | some v => simp [convert_to_dict, hj] at h
  · intro h
    simp [convert_to_dict, h]

/-- Witness for C2: a concrete mapping passes through unchanged, and a
concrete malformed string fails with `ParseError`. -/
theorem convert_to_dict_mapping_id_string_parse_witness :
    convert_to_dict (.vDict [("a", .vInt 1)]) = .ok (.vDict [("a", .vInt 1)]) ∧
    convert_to_dict (.vStr "[1") = .error .parseError :=
  ⟨convert_to_dict_mapping_id_string_parse.1 [("a", .vInt 1)],
   ((convert_to_dict_mapping_id_string_parse.2 "[1").2).mpr rfl⟩

/-- C3: on a streaming-chunk-shaped mapping output (key `choices` a
non-empty list whose first element has no `message` field),
`detect_str_from_output` returns the string form of the first element's
`delta.content` when non-null, and the empty string when that value is
null, rather than stringifying the whole output. -/
theorem detect_str_from_output_streaming_chunk
    (kvs c delta : List (String × PyVal)) (rest : List PyVal)
    (content : PyVal)
    (hch : dlookup kvs "choices" = some (.vList (.vDict c :: rest)))
    (hmsg : dlookup c "message" = none)
    (hdelta : dlookup c "delta" = some (.vDict delta))
    (hcontent : dlookup delta "content" = some content) :
    detect_str_from_output (.vDict kvs) =
      .ok (.vStr (if content.isNone then "" else pyStr content)) := by
  simp [detect_str_from_output, detectChoicesBlock, pyGet, hch, hmsg, hdelta,
    hcontent, Bind.bind, Except.bind, PyVal.isNone]
  cases content <;> simp [PyVal.isNone, Pure.pure, Except.pure]

/-- Witness for C3: a chunk with `delta.content = "tok"` yields `"tok"`,
and a chunk with `delta.content = null` yields `""`. -/
theorem detect_str_from_output_streaming_chunk_witness :
    detect_str_from_output
        (.vDict [("choices",
          .vList [.vDict [("delta", .vDict [("content", .vStr "tok")])]])]) =
      .ok (.vStr "tok") ∧
    detect_str_from_output
        (.vDict [("choices",
          .vList [.vDict [("delta", .vDict [("content", .vNone)])]])]) =
      .ok (.vStr "") :=
  ⟨detect_str_from_output_streaming_chunk
      [("choices", .vList [.vDict [("delta", .vDict [("content", .vStr "tok")])]])]
      [("delta", .vDict [("content", .vStr "tok")])]
      [("content", .vStr "tok")] [] (.vStr "tok") rfl rfl rfl rfl,
   detect_str_from_output_streaming_chunk
      [("choices", .vList [.vDict [("delta", .vDict [("content", .vNone)])]])]
      [("delta", .vDict [("content", .vNone)])]
      [("content", .vNone)] [] .vNone rfl rfl rfl rfl⟩

/-- C4: on a non-streaming completion record (key `choices` a non-empty
list whose first element has a `message` field) with
`choices[0].message.content` equal to a string `X`,
`detect_str_from_output` returns `X`. -/
theorem detect_str_from_output_completion
    (kvs c msgkvs : List (String × PyVal)) (rest : List PyVal) (X : String)
    (hch : dlookup kvs "choices" = some (.vList (.vDict c :: rest)))
    (hmsg : dlookup c "message" = some (.vDict msgkvs))
    (hcontent : dlookup msgkvs "content" = some (.vStr X)) :
    detect_str_from_output (.vDict kvs) = .ok (.vStr X) := by
  simp [detect_str_from_output, detectChoicesBlock, pyGet, hch, hmsg, hcontent,
    Bind.bind, Except.bind, PyVal.isNone, pyStr, Pure.pure, Except.pure]

/-- Witness for C4 at a concrete completion record. -/
theorem detect_str_from_output_completion_witness :
    detect_str_from_output
        (.vDict [("choices",
          .vList [.vDict [("message", .vDict [("content", .vStr "X")])]]),
          ("model", .vStr "gpt-x")]) =
      .ok (.vStr "X") :=
  detect_str_from_output_completion
    [("choices", .vList [.vDict [("message", .vDict [("content", .vStr "X")])]]),
     ("model", .vStr "gpt-x")]
    [("message", .vDict [("content", .vStr "X")])]
    [("content", .vStr "X")] [] "X" rfl rfl rfl

/-- C6: `detect_usage_from_input_output` returns the output's `usage`
field whenever the coerced output has one; otherwise
`{completion_tokens: 1}` whenever the output's `object` field equals
`"chat.completion.chunk"`; otherwise `None` — for every input and
output. -/
theorem detect_usage_from_input_output_cases (input output : PyVal) :
    (∀ kvs u, usageCoerce output = .vDict kvs →
        dlookup kvs "usage" = some u →
        detect_usage_from_input_output input output = some u) ∧
    (∀ kvs, usageCoerce output = .vDict kvs →
        dlookup kvs "usage" = none →
        dlookup kvs "object" = some (.vStr "chat.completion.chunk") →
        detect_usage_from_input_output input output =
          some (.vDict [("completion_tokens", .vInt 1)])) ∧
    (∀ kvs, usageCoerce output = .vDict kvs →
        dlookup kvs "usage" = none →
        (∀ s, dlookup kvs "object" = some (.vStr s) →
          s ≠ "chat.completion.chunk") →
        detect_usage_from_input_output input output = none) ∧
    ((∀ kvs, usageCoerce output ≠ .vDict kvs) →
        detect_usage_from_input_output input output = none) := by
  refine ⟨?_, ?_, ?_, ?_⟩
  · intro kvs u hco hu
    simp [detect_usage_from_input_output, hco, hu]
  · intro kvs hco hu hobj
    simp [detect_usage_from_input_output, hco, hu, hobj]
  · intro kvs hco hu hobj
    simp only [detect_usage_from_input_output, hco, hu]
    cases ho : dlookup kvs "object" with
    | none => simp [ho]
    | some v =>
        cases v <;> simp_all
  · intro hnd
    simp only [detect_usage_from_input_output]

/-- Witness for C6: the `usage` field wins, a chunk without `usage`
yields the one-token dict, and a non-mapping output yields `None`. -/
theorem detect_usage_from_input_output_cases_witness :
    detect_usage_from_input_output .vNone
        (.vDict [("usage", .vDict [("total_tokens", .vInt 42)])]) =
      some (.vDict [("total_tokens", .vInt 42)]) ∧
    detect_usage_from_input_output .vNone
        (.vDict [("object", .vStr "chat.completion.chunk")]) =
      some (.vDict [("completion_tokens", .vInt 1)]) ∧
    detect_usage_from_input_output .vNone (.vInt 3) = none :=
  ⟨(detect_usage_from_input_output_cases .vNone _).1 _ _ rfl rfl,
   (detect_usage_from_input_output_cases .vNone _).2.1 _ rfl rfl rfl,
   (detect_usage_from_input_output_cases .vNone (.vInt 3)).2.2.2
     (fun _ h => PyVal.noConfusion h)⟩

/-- C8: `Workload.run` with any executor type other than `"parallel"`
and `"sequential"`, a non-empty job list and non-empty messages, fails
with `NotImplementedError` (the spec's `UnsupportedModeError`). -/
theorem workload_run_unsupported_mode (w : Workload)
    (messages : List Message) (executor_type : String)
    (hpar : executor_type ≠ "parallel")
    (hseq : executor_type ≠ "sequential")
    (hjobs : w.jobs ≠ []) (hmsgs : messages ≠ []) :
    Workload.run w messages executor_type = .error .notImplementedError := by
  obtain ⟨j, rest, hcons⟩ := List.exists_cons_of_ne_nil hjobs
  simp [Workload.run, hcons, runOneJob, hpar, hseq, Bind.bind, Except.bind,
    List.mapM, List.mapM.loop]

/-- Witness for C8 at a concrete workload and mode `"threaded"`. -/
theorem workload_run_unsupported_mode_witness :
    Workload.run
        ⟨[⟨"job1", ⟨"f", fun _ => .ok .vNone⟩, []⟩], []⟩
        [⟨"m1", "user", "hi"⟩] "threaded" =
      .error .notImplementedError :=
  workload_run_unsupported_mode _ _ _
    (by decide) (by decide) (by simp) (by simp)

/-- C10: `Job.run` raises exactly when the bound job function raises on
the message; on an error `job_results` is left unchanged, and on success
the only change to `job_results` is the binding of the message's id to
the returned result. -/
theorem job_run_raises_iff_function_and_atomic (j : Job) (m : Message) :
    (∀ e, j.job_function.run m = .error e → Job.run j m = (.error e, j)) ∧
    (∀ r, j.job_function.run m = .ok r →
        (Job.run j m).1 = .ok r ∧
        (Job.run j m).2.job_id = j.job_id ∧
        (Job.run j m).2.job_function = j.job_function ∧
        dlookup (Job.run j m).2.job_results m.id = some r ∧
        (∀ k, k ≠ m.id →
          dlookup (Job.run j m).2.job_results k = dlookup j.job_results k)) := by
  constructor
  · intro e he
    simp [Job.run, he]
  · intro r hr
    refine ⟨by simp [Job.run, hr], by simp [Job.run, hr], by simp [Job.run, hr],
      ?_, ?_⟩
    · simp [Job.run, hr, dlookup_dictInsert]
    · intro k hk
      simp [Job.run, hr, dlookup_dictInsert, hk]

/-- Witness for C10: a raising function leaves a pre-populated
`job_results` untouched; a returning function adds exactly the new
binding. -/
theorem job_run_raises_iff_function_and_atomic_witness :
    Job.run ⟨"j", ⟨"boom", fun _ => .error .valueError⟩, [("old", .vInt 7)]⟩
        ⟨"m1", "user", "hi"⟩ =
      (.error .valueError,
       ⟨"j", ⟨"boom", fun _ => .error .valueError⟩, [("old", .vInt 7)]⟩) ∧
    dlookup
        (Job.run ⟨"j", ⟨"f", fun _ => .ok (.vInt 1)⟩, [("old", .vInt 7)]⟩
          ⟨"m1", "user", "hi"⟩).2.job_results "m1" =
      some (.vInt 1) ∧
    dlookup
        (Job.run ⟨"j", ⟨"f", fun _ => .ok (.vInt 1)⟩, [("old", .vInt 7)]⟩
          ⟨"m1", "user", "hi"⟩).2.job_results "old" =
      some (.vInt 7) :=
  ⟨(job_run_raises_iff_function_and_atomic _ _).1 .valueError rfl,
   ((job_run_raises_iff_function_and_atomic _ _).2 (.vInt 1) rfl).2.2.2.1,
   (((job_run_raises_iff_function_and_atomic
       ⟨"j", ⟨"f", fun _ => .ok (.vInt 1)⟩, [("old", .vInt 7)]⟩
       ⟨"m1", "user", "hi"⟩).2 (.vInt 1) rfl).2.2.2.2 "old" (by decide))⟩

/-- Helper for C9: the `from_config` job-construction loop fails with
`AttributeError` as soon as some remaining entry's name is not in the
registry, whatever the accumulated workload is. -/
theorem fromConfigLoop_unknown (registry : JobRegistry) :
    ∀ (l : List (String × JobCfg)) (w0 : Workload),
    (∃ entry ∈ l, registry entry.2.name = none) →
    fromConfigLoop registry w0 l = .error .attributeError := by
  intro l
  induction l with
  | nil =>
      rintro w0 ⟨e, he, _⟩
      exact absurd he (List.not_mem_nil e)
  | cons hd tl ih =>
      rintro w0 ⟨e, he, hmiss⟩
      cases hreg : registry hd.2.name with
      | none =>
          simp [fromConfigLoop, Job.init, hreg, Bind.bind, Except.bind]
      | some fn =>
          rcases List.mem_cons.mp he with he | he
          · subst he
            rw [hreg] at hmiss
            cases hmiss
          · simp only [fromConfigLoop, Job.init, hreg, Bind.bind, Except.bind,
              Option.isNone, Pure.pure, Except.pure]
            exact ih _ ⟨e, he, hmiss⟩

/-- C9: `Workload.from_config` fails with `AttributeError` (the spec's
`UnknownJobError`) whenever some configured job's name is absent from
the registry of named job functions. -/
theorem from_config_unknown_job (registry : JobRegistry)
    (jobs_config : List (String × JobCfg))
    (hmiss : ∃ entry ∈ jobs_config, registry entry.2.name = none) :
    Workload.from_config registry jobs_config = .error .attributeError :=
  fromConfigLoop_unknown registry jobs_config Workload.init hmiss

/-- Witness for C9: a two-entry config whose second job name is not
registered. -/
theorem from_config_unknown_job_witness :
    Workload.from_config
        (fun n => if n = "known" then some ⟨"known", fun _ => .ok .vNone⟩
                  else none)
        [("a", ⟨"known"⟩), ("b", ⟨"missing"⟩)] =
      .error .attributeError :=
  from_config_unknown_job _ _ ⟨("b", ⟨"missing"⟩), by simp, by simp⟩

/-- C5: `extract_data_from_input` on a string `s` with no raw input
returns the pair `(s, s)`; whenever it returns, the `content_str`
component is a genuine string — the input itself for a string input,
otherwise the `detect_str_from_input` value, which falls back to the
stringified input when the input is not a mapping or has no `messages`
key. -/
theorem extract_data_from_input_str_identity_nonnull :
    (∀ s : String,
        extract_data_from_input (.vStr s) .vNone = .ok (s, .vStr s)) ∧
    (∀ (input raw : PyVal) (out : String) (rlog : PyVal),
        extract_data_from_input input raw = .ok (out, rlog) →
        input = .vStr out ∨ detect_str_from_input input = .ok out) ∧
    (∀ input : PyVal, (∀ kvs, input ≠ .vDict kvs) →
        detect_str_from_input input = .ok (pyStr input)) ∧
    (∀ kvs : List (String × PyVal), dlookup kvs "messages" = none →
        detect_str_from_input (.vDict kvs) = .ok (pyStr (.vDict kvs))) := by
  refine ⟨fun s => rfl, ?_, ?_, ?_⟩
  · intro input raw out rlog h
    cases hs : input.asStr with
    | some t =>
        left
        rw [(PyVal.asStr_eq_some_iff input t).1 hs] at h ⊢
        cases hro : rawOverride raw (.vStr t) with
        | error e =>
            simp [extract_data_from_input, PyVal.asStr, hro, Bind.bind,
              Except.bind, Pure.pure, Except.pure] at h
        | ok fr =>
            simp [extract_data_from_input, PyVal.asStr, hro, Bind.bind,
              Except.bind, Pure.pure, Except.pure] at h
            rw [h.1]
    | none =>
        right
        cases hdet : detect_str_from_input input with
        | error e =>
            simp [extract_data_from_input, hs, hdet, Bind.bind,
              Except.bind] at h
        | ok t =>
            cases hj : is_jsonable input with
            | true =>
                cases hro : rawOverride raw input with
                | error e =>
                    simp [extract_data_from_input, hs, hdet, hj, hro,
                      Bind.bind, Except.bind, Pure.pure, Except.pure] at h
                | ok fr =>
                    simp [extract_data_from_input, hs, hdet, hj, hro,
                      Bind.bind, Except.bind, Pure.pure, Except.pure] at h
                    exact congrArg Except.ok h.1
            | false =>
                cases hconv : convert_to_dict input with
                | error e =>
                    simp [extract_data_from_input, hs, hdet, hj, hconv,
                      Bind.bind, Except.bind, Pure.pure, Except.pure] at h
                | ok d =>
                    cases hf : filter_nonjsonable_keys d with
                    | error e =>
                        simp [extract_data_from_input, hs, hdet, hj, hconv,
                          hf, Bind.bind, Except.bind, Pure.pure,
                          Except.pure] at h
                    | ok fd =>
                        cases hro : rawOverride raw fd with
                        | error e =>
                            simp [extract_data_from_input, hs, hdet, hj,
                              hconv, hf, hro, Bind.bind, Except.bind,
                              Pure.pure, Except.pure] at h
                        | ok fr =>
                            simp [extract_data_from_input, hs, hdet, hj,
                              hconv, hf, hro, Bind.bind, Except.bind,
                              Pure.pure, Except.pure] at h
                            exact congrArg Except.ok h.1
  · intro input hnd
    cases input
    all_goals
      first
      | (rename_i kvs; exact absurd rfl (hnd kvs))
      | rfl
  · intro kvs hm
    simp [detect_str_from_input, hm, Pure.pure, Except.pure]

/-- Witness for C5: the string identity pair at `"hello"`, the
stringification fallback at the integer `3`, and the `content_str`
disjunction at the integer `3`. -/
theorem extract_data_from_input_str_identity_nonnull_witness :
    extract_data_from_input (.vStr "hello") .vNone =
      .ok ("hello", .vStr "hello") ∧
    detect_str_from_input (.vInt 3) = .ok (pyStr (.vInt 3)) ∧
    ((PyVal.vInt 3) = .vStr "3" ∨
      detect_str_from_input (.vInt 3) = .ok "3") :=
  ⟨extract_data_from_input_str_identity_nonnull.1 "hello",
   extract_data_from_input_str_identity_nonnull.2.2.1 (.vInt 3)
     (fun _ h => PyVal.noConfusion h),
   extract_data_from_input_str_identity_nonnull.2.1 (.vInt 3) .vNone "3"
     (.vInt 3) rfl⟩

/-- Helper for C7: a sequential dispatch whose job function succeeds on
every message succeeds, keeps the job's identity and function, leaves
unrelated `job_results` keys untouched, and (for distinct message ids)
stores each message's own result. -/
theorem runSequential_ok (f : Message → JobResult) :
    ∀ (messages : List Message) (j : Job),
    (∀ m ∈ messages, j.job_function.run m = .ok (f m)) →
    ∃ j', runSequential j messages = .ok j' ∧
      j'.job_id = j.job_id ∧ j'.job_function = j.job_function ∧
      (∀ k, k ∉ messages.map Message.id →
        dlookup j'.job_results k = dlookup j.job_results k) ∧
      ((messages.map Message.id).Nodup →
        ∀ m ∈ messages, dlookup j'.job_results m.id = some (f m)) := by
  intro messages
  induction messages with
  | nil =>
      intro j _
      exact ⟨j, rfl, rfl, rfl, fun k _ => rfl,
        fun _ m hm => absurd hm (List.not_mem_nil m)⟩
  | cons m rest ih =>
      intro j h
      have hm0 : j.job_function.run m = .ok (f m) := h m (by simp)
      have hrest : ∀ m' ∈ rest,
          (Job.mk j.job_id j.job_function
            (dictInsert j.job_results m.id (f m))).job_function.run m' =
            .ok (f m') := by
        intro m' hm'
        exact h m' (by simp [hm'])
      obtain ⟨j', hj', hid, hfn, hframe, hmem⟩ :=
        ih (Job.mk j.job_id j.job_function
          (dictInsert j.job_results m.id (f m))) hrest
      have hstep : runSequential j (m :: rest) =
          runSequential (Job.mk j.job_id j.job_function
            (dictInsert j.job_results m.id (f m))) rest := by
        simp [runSequential, Job.run, hm0]
      refine ⟨j', hstep ▸ hj', hid, hfn, ?_, ?_⟩
      · intro k hk
        have hkm : k ≠ m.id := fun hkm => hk (by simp [hkm])
        have hkrest : k ∉ rest.map Message.id := fun hr => hk (by simp [hr])
        rw [hframe k hkrest]
        show dlookup (dictInsert j.job_results m.id (f m)) k = _
        rw [dlookup_dictInsert]
        simp [hkm]
      · intro hnd m' hm'
        rw [List.map_cons] at hnd
        have hnd' := List.nodup_cons.mp hnd
        rcases List.mem_cons.mp hm' with he | he
        · subst he
          rw [hframe _ hnd'.1]
          show dlookup (dictInsert j.job_results m'.id (f m')) m'.id = _
          rw [dlookup_dictInsert]
          simp
        · exact hmem hnd'.2 m' he

/-- Helper for C7: collecting a single job's results succeeds when the
job has a result for every message, and (for distinct ids) binds each
message id to the one-entry inner table. -/
theorem collectLoop_single (j' : Job) (f : Message → JobResult) :
    ∀ (messages : List Message)
      (acc : List (String × List (String × JobResult))),
    (∀ m ∈ messages, dlookup j'.job_results m.id = some (f m)) →
    ∃ table, collectLoop [j'] acc messages = .ok table ∧
      (∀ k, k ∉ messages.map Message.id →
        dlookup table k = dlookup acc k) ∧
      ((messages.map Message.id).Nodup → ∀ m ∈ messages,
        dlookup table m.id = some [(j'.job_id, f m)]) := by
  intro messages
  induction messages with
  | nil =>
      intro acc _
      exact ⟨acc, rfl, fun k _ => rfl,
        fun _ m hm => absurd hm (List.not_mem_nil m)⟩
  | cons m rest ih =>
      intro acc h
      have hm0 : dlookup j'.job_results m.id = some (f m) := h m (by simp)
      have hstep : collectLoop [j'] acc (m :: rest) =
          collectLoop [j'] (dictInsert acc m.id [(j'.job_id, f m)]) rest := by
        simp [collectLoop, collectInnerLoop, hm0, dictInsert, Bind.bind,
          Except.bind]
      obtain ⟨table, htab, hframe, hmem⟩ :=
        ih (dictInsert acc m.id [(j'.job_id, f m)])
          (fun m' hm' => h m' (by simp [hm']))
      refine ⟨table, hstep ▸ htab, ?_, ?_⟩
      · intro k hk
        have hkm : k ≠ m.id := fun hkm => hk (by simp [hkm])
        have hkrest : k ∉ rest.map Message.id := fun hr => hk (by simp [hr])
        rw [hframe k hkrest, dlookup_dictInsert]
        simp [hkm]
      · intro hnd m' hm'
        rw [List.map_cons] at hnd
        have hnd' := List.nodup_cons.mp hnd
        rcases List.mem_cons.mp hm' with he | he
        · subst he
          rw [hframe _ hnd'.1, dlookup_dictInsert]
          simp
        · exact hmem hnd'.2 m' he

/-- C7: for a workload containing one job run over messages with
distinct ids in sequential mode, `Workload.run` returns a table in
which, for each message, `results[msg.id][job.job_id]` equals the value
that a standalone `Job.run msg` would return for that message. -/
theorem workload_run_sequential_single_job
    (job : Job) (messages : List Message) (f : Message → JobResult)
    (hrun : ∀ m ∈ messages, job.job_function.run m = .ok (f m))
    (hids : (messages.map Message.id).Nodup) :
    ∃ table j',
      Workload.run ⟨[job], []⟩ messages "sequential" =
        .ok (table, ⟨[j'], table⟩) ∧
      ∀ m ∈ messages,
        (Job.run job m).1 = .ok (f m) ∧
        ∃ inner, dlookup table m.id = some inner ∧
          dlookup inner job.job_id = some (f m) := by
  obtain ⟨j', hj', hid, hfn, _, hmem⟩ := runSequential_ok f messages job hrun
  obtain ⟨table, htab, _, htmem⟩ :=
    collectLoop_single j' f messages [] (hmem hids)
  refine ⟨table, j', ?_, ?_⟩
  · simp [Workload.run, runOneJob, List.mapM, List.mapM.loop, hj',
      collectResults, htab, Bind.bind, Except.bind, Pure.pure, Except.pure]
  · intro m hm
    refine ⟨by simp [Job.run, hrun m hm], [(j'.job_id, f m)],
      htmem hids m hm, ?_⟩
    rw [hid]
    simp [dlookup]

/-- Witness for C7: one job over two messages with distinct ids. -/
theorem workload_run_sequential_single_job_witness :
    (∀ m ∈ [(⟨"m1", "user", "hi"⟩ : Message), ⟨"m2", "user", "yo"⟩],
        JobFn.run ⟨"f", fun m => .ok (.vStr m.content)⟩ m =
          .ok (.vStr m.content)) ∧
    ((([(⟨"m1", "user", "hi"⟩ : Message), ⟨"m2", "user", "yo"⟩]).map
        Message.id).Nodup) ∧
    (∃ table j',
      Workload.run
          ⟨[⟨"job1", ⟨"f", fun m => .ok (.vStr m.content)⟩, []⟩], []⟩
          [⟨"m1", "user", "hi"⟩, ⟨"m2", "user", "yo"⟩] "sequential" =
        .ok (table, ⟨[j'], table⟩) ∧
      ∀ m ∈ [(⟨"m1", "user", "hi"⟩ : Message), ⟨"m2", "user", "yo"⟩],
        (Job.run ⟨"job1", ⟨"f", fun m => .ok (.vStr m.content)⟩, []⟩ m).1 =
          .ok (.vStr m.content) ∧
        ∃ inner, dlookup table m.id = some inner ∧
          dlookup inner "job1" = some (.vStr m.content)) :=
  ⟨fun _ _ => rfl, by decide,
   workload_run_sequential_single_job
     ⟨"job1", ⟨"f", fun m => .ok (.vStr m.content)⟩, []⟩
     [⟨"m1", "user", "hi"⟩, ⟨"m2", "user", "yo"⟩]
     (fun m => .vStr m.content) (fun _ _ => rfl) (by decide)⟩

/-- Counterexample to C1 as stated: an unrecognized record type with no
dict coercion is among the supported output shapes, yet
`extract_data_from_output` raises `NotImplementedError` out of
`convert_to_dict` (extractor.py, line 238 is not inside any handler)
instead of degrading. -/
theorem extract_data_from_output_raises_on_unconvertible_record :
    extract_data_from_output (.vObj "CustomOutput") .vNone =
      .error .notImplementedError := rfl

/-- C1 (amended): with no raw output given, `extract_data_from_output`
returns without raising exactly when the output is `None`, a string, or
a value whose text detection succeeds and which is either
JSON-serializable or convertible to a mapping; and when a
non-serializable output does convert to a mapping, its non-serializable
fields are dropped from the structured representation rather than
causing a failure. -/
theorem extract_data_from_output_failure_absorbing_characterization :
    (∀ output : PyVal,
      (∃ p, extract_data_from_output output .vNone = .ok p) ↔
        (output = .vNone ∨ (∃ s, output = .vStr s) ∨
         ((∃ t, detect_str_from_output output = .ok t) ∧
          (is_jsonable output = true ∨
           ∃ kvs, convert_to_dict output = .ok (.vDict kvs))))) ∧
    (∀ (output t : PyVal) (kvs : List (String × PyVal)),
      detect_str_from_output output = .ok t →
      is_jsonable output = false →
      convert_to_dict output = .ok (.vDict kvs) →
      extract_data_from_output output .vNone =
        .ok (t, .vDict (kvs.filter fun kv => is_jsonable kv.2))) := by
  constructor
  · intro output
    by_cases hn : output.isNone = true
    · rw [(PyVal.isNone_iff output).1 hn]
      constructor
      · intro _
        exact Or.inl rfl
      · intro _
        exact ⟨(.vNone, .vNone), rfl⟩
    · have hn' : output.isNone = false := by simpa using hn
      cases hs : output.asStr with
      | some s =>
          rw [(PyVal.asStr_eq_some_iff output s).1 hs]
          constructor
          · intro _
            exact Or.inr (Or.inl ⟨s, rfl⟩)
          · intro _
            exact ⟨(.vStr s, .vStr s), rfl⟩
      | none =>
          have hnotnone : output ≠ .vNone := by
            intro h
            rw [h] at hn'
            simp [PyVal.isNone] at hn'
          have hnotstr : ∀ s, output ≠ .vStr s := by
            intro s h
            rw [h] at hs
            simp [PyVal.asStr] at hs
          constructor
          · rintro ⟨p, hp⟩
            cases hdet : detect_str_from_output output with
            | error e =>
                simp [extract_data_from_output, hn', hs, hdet, Bind.bind,
                  Except.bind] at hp
            | ok t =>
                refine Or.inr (Or.inr ⟨⟨t, rfl⟩, ?_⟩)
                cases hj : is_jsonable output with
                | true => exact Or.inl rfl
                | false =>
                    cases hconv : convert_to_dict output with
                    | error e =>
                        simp [extract_data_from_output, hn', hs, hdet, hj,
                          hconv, Bind.bind, Except.bind] at hp
                    | ok d =>
                        cases d
                        all_goals first
                          | (rename_i kvs
                             exact Or.inr ⟨kvs, rfl⟩)
                          | simp [extract_data_from_output, hn', hs, hdet,
                              hj, hconv, filter_nonjsonable_keys, Bind.bind,
                              Except.bind, Pure.pure, Except.pure] at hp
          · rintro (h | ⟨s, h⟩ | ⟨⟨t, hdet⟩, hrest⟩)
            · exact absurd h hnotnone
            · exact absurd h (hnotstr s)
            · rcases hrest with hj | ⟨kvs, hconv⟩
              · exact ⟨(t, output), by
                  simp [extract_data_from_output, hn', hs, hdet, hj,
                    rawOverride, PyVal.isNone, Bind.bind, Except.bind,
                    Pure.pure, Except.pure]⟩
              · cases hj : is_jsonable output with
                | true =>
                    exact ⟨(t, output), by
                      simp [extract_data_from_output, hn', hs, hdet, hj,
                        rawOverride, PyVal.isNone, Bind.bind, Except.bind,
                        Pure.pure, Except.pure]⟩
                | false =>
                    exact ⟨(t, .vDict (kvs.filter fun kv => is_jsonable kv.2)),
                      by
                      simp [extract_data_from_output, hn', hs, hdet, hj,
                        hconv, filter_nonjsonable_keys, rawOverride,
                        PyVal.isNone, Bind.bind, Except.bind, Pure.pure,
                        Except.pure]⟩
  · intro output t kvs hdet hjson hconv
    have hn : output.isNone = false := by
      cases output
      all_goals first | rfl | simp [is_jsonable] at hjson
    have hs : output.asStr = none := by
      cases output
      all_goals first | rfl | simp [is_jsonable] at hjson
    simp only [extract_data_from_output, hn, hs, hdet, hjson, hconv,
      Bind.bind, Except.bind, Pure.pure, Except.pure, Bool.false_eq_true,
      if_false]
    simp [filter_nonjsonable_keys, rawOverride, PyVal.isNone, Bind.bind,
      Except.bind, Pure.pure, Except.pure]

/-- Witness for C1 (amended): a serializable mapping succeeds, and a
mapping with one non-serializable field succeeds with that field
dropped. -/
theorem extract_data_from_output_failure_absorbing_witness :
    (∃ p, extract_data_from_output (.vDict [("a", .vInt 1)]) .vNone =
        .ok p) ∧
    extract_data_from_output
        (.vDict [("a", .vInt 1), ("b", .vObj "NotSerializable")]) .vNone =
      .ok (.vStr (pyStr (.vDict [("a", .vInt 1),
             ("b", .vObj "NotSerializable")])),
           .vDict [("a", .vInt 1)]) :=
  ⟨(extract_data_from_output_failure_absorbing_characterization.1
      (.vDict [("a", .vInt 1)])).mpr
      (Or.inr (Or.inr ⟨⟨.vStr (pyStr (.vDict [("a", .vInt 1)])), rfl⟩,
        Or.inl rfl⟩)),
   extract_data_from_output_failure_absorbing_characterization.2
     (.vDict [("a", .vInt 1), ("b", .vObj "NotSerializable")])
     (.vStr (pyStr (.vDict [("a", .vInt 1), ("b", .vObj "NotSerializable")])))
     [("a", .vInt 1), ("b", .vObj "NotSerializable")] rfl rfl rfl⟩

end Phospho
